import Mathlib

/-!
Verification of the citation coordinate-mapping and incremental result-aggregation
logic of the pipeshub-ai frontend.

The first part embeds the pure citation-to-highlight mapping of
`src/frontend/src/sections/qna/chatbot/components/pdf-highlighter.tsx`
(`processHighlight`, the batch processing inside `processCitationsWithHighlights`,
and `updateHighlight`).  JavaScript numbers are modelled as rationals, optional
values as `Option`, and the randomness of `getNextId` as an explicitly supplied
fresh string (one per citation index for a batch).

The second part models the incremental result aggregator of
`src/frontend/src/sections/knowledgebase/knowledge-search.tsx`.  The component in
the sources only forwards query submissions (`handleSearch`) and sentinel
crossings (`lastResultElementRef`, which is a no-op while `loading` and otherwise
advances the cursor by 10); the parent component that owns the item list, the
loading flag and the fetches is not part of the sources, so that part is
modelled from the spec (generation-token discipline, append-on-pagination).
-/

namespace Pipeshub

/-- One corner of a citation bounding box, in page-fraction coordinates
(`BoundingBox` in the sources). -/
structure BoundingBox where
  x : ℚ
  y : ℚ
deriving DecidableEq

/-- The fields of `citation.metadata` used by the mapper: the bounding box, the
page number and the backend identifier `_id` (the spec's `sourceId`).  Absent
(`undefined`) values are `none`. -/
structure CitationMetadata where
  bounding_box : Option (List BoundingBox)
  pageNum : Option Nat
  _id : Option String
deriving DecidableEq

/-- A citation as consumed by `processHighlight` (`DocumentContent` in the
sources): the matched text plus metadata, either of which may be absent. -/
structure DocumentContent where
  content : Option String
  metadata : Option CitationMetadata
deriving DecidableEq

/-- An absolute rectangle as built by `processHighlight` (`mainRect`). -/
structure Rect where
  x1 : ℚ
  y1 : ℚ
  x2 : ℚ
  y2 : ℚ
  width : ℚ
  height : ℚ
  pageNumber : Nat
deriving DecidableEq

/-- Highlight content: text and, for user-drawn area highlights, a screenshot
image.  Both keys are optional in the sources (`Content`). -/
structure Content where
  text : Option String
  image : Option String
deriving DecidableEq

/-- Highlight position (`Position` in the sources). -/
structure Position where
  boundingRect : Rect
  rects : List Rect
  pageNumber : Nat
deriving DecidableEq

/-- User annotation attached to a highlight (`Comment` in the sources). -/
structure Comment where
  text : String
  emoji : String
deriving DecidableEq

/-- A positioned highlight (`HighlightType` in the sources). -/
structure HighlightType where
  content : Content
  position : Position
  comment : Comment
  id : String
deriving DecidableEq

/-- The hard-coded page width used by `processHighlight` (line 54). -/
def PAGE_WIDTH : ℚ := 967

/-- The hard-coded page height used by `processHighlight` (line 55). -/
def PAGE_HEIGHT : ℚ := 747.2272727272727

/-- Shallow embedding of `processHighlight` (pdf-highlighter.tsx lines 43-86).
The string `fresh` is the value the call to `getNextId()` would return; it is
consulted only when `metadata._id` is absent or falsy (the empty string), since
the source computes `citation.metadata._id || citation.metadata._id ||
getNextId()`.  A missing metadata object or a bounding box that is absent or
does not have exactly 4 points yields `null` (here `none`); the `x`/`y` of
corners 0 and 2 are scaled by the hard-coded page dimensions, and a falsy
(`undefined` or `0`) page number defaults to `1`. -/
def processHighlight (fresh : String) (citation : DocumentContent) :
    Option HighlightType :=
  match citation.metadata with
  | none => none
  | some md =>
    match md.bounding_box with
    | none => none
    | some [p0, _p1, p2, _p3] =>
      let pageNumber : Nat :=
        match md.pageNum with
        | none => 1
        | some 0 => 1
        | some n => n
      let mainRect : Rect :=
        { x1 := p0.x * PAGE_WIDTH
          y1 := p0.y * PAGE_HEIGHT
          x2 := p2.x * PAGE_WIDTH
          y2 := p2.y * PAGE_HEIGHT
          width := PAGE_WIDTH
          height := PAGE_HEIGHT
          pageNumber := pageNumber }
      some
        { content := { text := some (citation.content.getD ""), image := none }
          position :=
            { boundingRect := mainRect
              rects := [mainRect]
              pageNumber := mainRect.pageNumber }
          comment := { text := "", emoji := "" }
          id :=
            match md._id with
            | none => fresh
            | some s => if s = "" then fresh else s }
    | some _ => none

/-- Whether a citation passes the bounding-box validation of `processHighlight`
(line 48: `!boundingBox || boundingBox.length !== 4` rejects). -/
def hasValidBoundingBox (citation : DocumentContent) : Bool :=
  match citation.metadata with
  | none => false
  | some md =>
    match md.bounding_box with
    | none => false
    | some [_, _, _, _] => true
    | some _ => false

/-- Number of diagnostics `processHighlight` reports for one citation: exactly
one `console.warn` on the invalid-bounding-box early return (line 49), none on
success. -/
def processHighlightWarnings (citation : DocumentContent) : Nat :=
  match citation.metadata with
  | none => 1
  | some md =>
    match md.bounding_box with
    | none => 1
    | some [_, _, _, _] => 0
    | some _ => 1

/-- Auxiliary recursion for the batch mapping: each citation is processed with
its own fresh identifier draw and the `null` results are filtered out, exactly
as `citations.map(...)` followed by `.filter(Boolean)` does in
`processCitationsWithHighlights` (lines 144-166). -/
def processCitationsAux (fresh : Nat → String) (i : Nat) :
    List DocumentContent → List HighlightType
  | [] => []
  | c :: cs =>
    match processHighlight (fresh i) c with
    | some h => h :: processCitationsAux fresh (i + 1) cs
    | none => processCitationsAux fresh (i + 1) cs

/-- The highlight list produced by one invocation of
`processCitationsWithHighlights`: every citation is mapped through
`processHighlight` (with `fresh i` the random string `getNextId()` would yield
for the i-th citation, if consulted) and the rejected ones are dropped. -/
def processCitationsWithHighlights (fresh : Nat → String)
    (citations : List DocumentContent) : List HighlightType :=
  processCitationsAux fresh 0 citations

/-- Total number of diagnostics reported while processing a batch. -/
def totalWarnings (citations : List DocumentContent) : Nat :=
  (citations.map processHighlightWarnings).sum

/-- A partial position update, as accepted by `updateHighlight`
(`Partial<Position>`): a present field overrides, an absent one is kept. -/
structure PartialPosition where
  boundingRect : Option Rect
  rects : Option (List Rect)
  pageNumber : Option Nat
deriving DecidableEq

/-- Spread-merge of a partial position over an existing one
(`{...h.position, ...position}`). -/
def mergePosition (pos : Position) (p : PartialPosition) : Position :=
  { boundingRect := p.boundingRect.getD pos.boundingRect
    rects := p.rects.getD pos.rects
    pageNumber := p.pageNumber.getD pos.pageNumber }

/-- Spread-merge of a partial content over an existing one
(`{...h.content, ...content}`); both fields of `Content` are already optional,
and a present (`some`) field of the update overrides. -/
def mergeContent (c : Content) (p : Content) : Content :=
  { text :=
      match p.text with
      | some t => some t
      | none => c.text
    image :=
      match p.image with
      | some i => some i
      | none => c.image }

/-- Shallow embedding of `updateHighlight` (pdf-highlighter.tsx lines 179-193):
map over the held highlights, returning every highlight whose `id` differs
unchanged, and rebuilding the matching one with its `position` and `content`
spread-merged with the update. -/
def updateHighlight (highlightId : String) (position : PartialPosition)
    (content : Content) (prevHighlights : List HighlightType) :
    List HighlightType :=
  prevHighlights.map fun h =>
    if h.id ≠ highlightId then h
    else
      { h with
        position := mergePosition h.position position
        content := mergeContent h.content content }

/-- Modelled from the spec: the Coordinate Mapper contract of spec section 4.1
as worded, with a caller-supplied `pageDimensions` lookup consulted for the
citation's declared page number and a fall-back default used only when the
lookup does not know the page.  This definition exists solely to compare the
spec's wording against the source implementation `processHighlight`, which has
no such lookup. -/
def mapCitationToHighlightSpec (pageDimensions : Nat → Option (ℚ × ℚ))
    (defaultDims : ℚ × ℚ) (fresh : String) (citation : DocumentContent) :
    Option HighlightType :=
  match citation.metadata with
  | none => none
  | some md =>
    match md.bounding_box with
    | none => none
    | some [p0, _p1, p2, _p3] =>
      let pageNumber : Nat :=
        match md.pageNum with
        | none => 1
        | some 0 => 1
        | some n => n
      let dims : ℚ × ℚ := (pageDimensions pageNumber).getD defaultDims
      let mainRect : Rect :=
        { x1 := p0.x * dims.1
          y1 := p0.y * dims.2
          x2 := p2.x * dims.1
          y2 := p2.y * dims.2
          width := dims.1
          height := dims.2
          pageNumber := pageNumber }
      some
        { content := { text := some (citation.content.getD ""), image := none }
          position :=
            { boundingRect := mainRect
              rects := [mainRect]
              pageNumber := mainRect.pageNumber }
          comment := { text := "", emoji := "" }
          id :=
            match md._id with
            | none => fresh
            | some s => if s = "" then fresh else s }
    | some _ => none

/-! ### Incremental result aggregator (knowledge-search)

`knowledge-search.tsx` only contributes `handleSearch` (forwarding a query
submission) and `lastResultElementRef` (dropping sentinel crossings while
`loading` and otherwise advancing the cursor through
`onTopKChange(prev => prev + 10)`).  The parent component owning `items`,
`loading` and the asynchronous fetches is not among the sources, so the fetch
lifecycle below is modelled from the spec (sections 3, 4.2 and 5). -/

/-- Modelled from the spec: the consumer-facing state of the incremental
result aggregator (spec section 3, `AggregatedResultSet`), together with the
generation/query token of spec section 5 that tags fetches. -/
structure AggregatedResultSet (α : Type) where
  generation : Nat
  query : String
  items : List α
  fetchCursor : Nat
  loading : Bool
  hasSearched : Bool
deriving DecidableEq

/-- Modelled from the spec: the initial value the fetch cursor is reset to on
a fresh query; the spec fixes only that such a reset happens, not the numeral,
which matches the page increment of the source. -/
def initialFetchCursor : Nat := 10

/-- Query submission.  `handleSearch` (knowledge-search.tsx lines 232-238)
records `hasSearched` and forwards the query; the rest is modelled from the
spec: a fresh query clears the items, resets the cursor, starts a fetch and
bumps the generation token that tags it (spec sections 4.2 and 5). -/
def submitQuery {α : Type} (s : AggregatedResultSet α) (q : String) :
    AggregatedResultSet α :=
  { generation := s.generation + 1
    query := q
    items := []
    fetchCursor := initialFetchCursor
    loading := true
    hasSearched := true }

/-- Modelled from the spec: a query fetch resolves carrying the generation
token it was tagged with; a response whose token differs from the current
generation is discarded, otherwise it replaces the visible items and clears
the loading flag (spec section 5, stale-response protection). -/
def fetchResolves {α : Type} (s : AggregatedResultSet α) (token : Nat)
    (results : List α) : AggregatedResultSet α :=
  if token = s.generation then { s with items := results, loading := false }
  else s

/-- A sentinel crossing.  The guard and the increment are from the source
(`lastResultElementRef`, knowledge-search.tsx lines 218-230): while `loading`
the crossing is dropped (`if (loading) return`), otherwise
`onTopKChange(prev => prev + 10)` advances the cursor; that the permitted
trigger starts a load-more fetch (`loading := true`) is modelled from the
spec (section 4.2, `Populated --scrolledToSentinel--> Loading`). -/
def scrolledToSentinel {α : Type} (s : AggregatedResultSet α) :
    AggregatedResultSet α :=
  if s.loading then s
  else { s with fetchCursor := s.fetchCursor + 10, loading := true }

/-- Modelled from the spec: a pagination ("load more") fetch resolves; if its
generation token is still current its items are appended to the existing
sequence (spec section 3 lifecycle: appended-to, not replaced) and the
loading flag clears, otherwise it is discarded. -/
def loadMoreResolves {α : Type} (s : AggregatedResultSet α) (token : Nat)
    (newItems : List α) : AggregatedResultSet α :=
  if token = s.generation then
    { s with items := s.items ++ newItems, loading := false }
  else s

/-! ### Concrete example inputs used by the counterexamples and witnesses -/

/-- A fresh-identifier supply for examples: the i-th draw of `getNextId`. -/
def exFresh : Nat → String := fun i => "r" ++ toString i

/-- A citation whose bounding box is the unit square: corner 0 is `(0,0)` and
corner 2 is `(1,1)`. -/
def unitBoxCitation : DocumentContent :=
  { content := some "unit"
    metadata :=
      some
        { bounding_box :=
            some [⟨0, 0⟩, ⟨1, 0⟩, ⟨1, 1⟩, ⟨0, 1⟩]
          pageNum := some 1
          _id := some "abc123" } }

/-- A valid citation carrying the backend identifier "dup". -/
def dupCitation : DocumentContent :=
  { content := some "d"
    metadata :=
      some
        { bounding_box :=
            some [⟨0, 0⟩, ⟨1, 0⟩, ⟨1, 1⟩, ⟨0, 1⟩]
          pageNum := some 2
          _id := some "dup" } }

/-- A citation with a malformed, 2-element bounding box. -/
def twoPointCitation : DocumentContent :=
  { content := some "bad"
    metadata :=
      some
        { bounding_box := some [⟨0, 0⟩, ⟨1, 1⟩]
          pageNum := some 3
          _id := some "bad3" } }

/-- A valid citation with no backend identifier and no page number. -/
def anonCitation : DocumentContent :=
  { content := none
    metadata :=
      some
        { bounding_box :=
            some [⟨0, 0⟩, ⟨1, 0⟩, ⟨1, 1⟩, ⟨0, 1⟩]
          pageNum := none
          _id := none } }

/-- The 5-citation batch of the malformed-box scenario: citation #3 (1-based)
has a 2-element bounding box, the other four are valid. -/
def batch5 : List DocumentContent :=
  [unitBoxCitation, dupCitation, twoPointCitation, anonCitation,
    { content := some "five"
      metadata :=
        some
          { bounding_box :=
              some [⟨0, 0⟩, ⟨1, 0⟩, ⟨1, 1⟩, ⟨0, 1⟩]
            pageNum := some 5
            _id := some "five5" } }]

/-- A page-dimension lookup that knows every page as 500 x 400. -/
def lookup500 : Nat → Option (ℚ × ℚ) := fun _ => some (500, 400)

/-- The backend identifier a citation effectively contributes to the highlight
id: `metadata._id` when present and truthy (non-empty), else nothing, in which
case `processHighlight` falls back to the fresh `getNextId` draw. -/
def citationSourceId (c : DocumentContent) : Option String :=
  match c.metadata with
  | none => none
  | some md =>
    match md._id with
    | none => none
    | some s => if s = "" then none else some s

/-- A concrete fresh-identifier supply with distinct draws for the first three
indices, used by witnesses. -/
def witnessFresh : Nat → String
  | 0 => "g0"
  | 1 => "g1"
  | 2 => "g2"
  | _ => "gX"

/-- A concrete held highlight with id "a". -/
def exHighlightA : HighlightType :=
  { content := { text := some "alpha", image := none }
    position :=
      { boundingRect := ⟨1, 2, 3, 4, 10, 20, 1⟩
        rects := [⟨1, 2, 3, 4, 10, 20, 1⟩]
        pageNumber := 1 }
    comment := { text := "ca", emoji := "" }
    id := "a" }

/-- A concrete held highlight with id "b". -/
def exHighlightB : HighlightType :=
  { content := { text := some "beta", image := some "img" }
    position :=
      { boundingRect := ⟨2, 3, 4, 5, 10, 20, 2⟩
        rects := [⟨2, 3, 4, 5, 10, 20, 2⟩]
        pageNumber := 2 }
    comment := { text := "cb", emoji := "e" }
    id := "b" }

/-! ## Helper lemmas -/

/-- A citation is rejected by `processHighlight` exactly when its bounding box
is missing or does not have exactly 4 points. -/
theorem processHighlight_eq_none_iff (f : String) (c : DocumentContent) :
    processHighlight f c = none ↔ hasValidBoundingBox c = false := by
  rcases c with ⟨cont, _ | ⟨bb, pn, sid⟩⟩
  · simp [processHighlight, hasValidBoundingBox]
  rcases bb with _ | bb
  · simp [processHighlight, hasValidBoundingBox]
  rcases bb with _ | ⟨a, _ | ⟨b, _ | ⟨d, _ | ⟨e, _ | ⟨g, rest⟩⟩⟩⟩⟩ <;>
    simp [processHighlight, hasValidBoundingBox]

/-- A citation accepted by `processHighlight` has a valid bounding box. -/
theorem valid_of_processHighlight_eq_some (f : String) (c : DocumentContent)
    (h : HighlightType) (hx : processHighlight f c = some h) :
    hasValidBoundingBox c = true := by
  cases hv : hasValidBoundingBox c with
  | true => rfl
  | false =>
    rw [(processHighlight_eq_none_iff f c).mpr hv] at hx
    cases hx

/-- A valid citation exposes its metadata and the four corners. -/
theorem exists_corners_of_valid (c : DocumentContent)
    (hv : hasValidBoundingBox c = true) :
    ∃ md p0 p1 p2 p3, c.metadata = some md
      ∧ md.bounding_box = some [p0, p1, p2, p3] := by
  rcases c with ⟨cont, _ | ⟨bb, pn, sid⟩⟩
  · simp [hasValidBoundingBox] at hv
  rcases bb with _ | bb
  · simp [hasValidBoundingBox] at hv
  rcases bb with _ | ⟨a, _ | ⟨b, _ | ⟨d, _ | ⟨e, _ | ⟨g, rest⟩⟩⟩⟩⟩ <;>
    simp [hasValidBoundingBox] at hv
  exact ⟨_, a, b, d, e, rfl, rfl⟩

/-- The id assigned by `processHighlight`: the citation's non-empty backend
identifier if any, else the fresh draw. -/
theorem processHighlight_id_eq (f : String) (c : DocumentContent)
    (h : HighlightType) (hx : processHighlight f c = some h) :
    h.id = (citationSourceId c).getD f := by
  rcases c with ⟨cont, _ | ⟨bb, pn, sid⟩⟩
  · simp [processHighlight] at hx
  rcases bb with _ | bb
  · simp [processHighlight] at hx
  rcases bb with _ | ⟨a, _ | ⟨b, _ | ⟨d, _ | ⟨e, _ | ⟨g, rest⟩⟩⟩⟩⟩ <;>
    simp [processHighlight] at hx
  subst hx
  rcases sid with _ | s
  · simp [citationSourceId]
  by_cases hs : s = "" <;> simp [citationSourceId, hs]

/-! ## Claim C1 -/

/-- C1 counterexample: for a citation whose box has corner 0 at (0,0) and
corner 2 at (1,1), the mapped rectangle's `y2` is the code's exact page
height 747.2272727272727 = 7472272727272727 / 10^13, not the claimed 747.23. -/
theorem claim1_counterexample :
    ((processHighlight "f" unitBoxCitation).map
        fun h => h.position.boundingRect.y2)
      = some ((7472272727272727 : ℚ) / 10 ^ 13)
    ∧ ((processHighlight "f" unitBoxCitation).map
        fun h => h.position.boundingRect.y2)
      ≠ some ((74723 : ℚ) / 100) := by
  constructor
  · simp [processHighlight, unitBoxCitation]
    norm_num [PAGE_HEIGHT]
  · simp [processHighlight, unitBoxCitation, PAGE_HEIGHT]
    norm_num

/-- C1 (amended): for every citation with a 4-point bounding box, the mapper
produces a rectangle whose (x1,y1) is corner 0 scaled by the page width and
height and whose (x2,y2) is corner 2 scaled likewise, with the rects list and
the single bounding rect populated identically; the page dimensions are the
code's constants (967, 747.2272727272727), so corners (0,0) and (1,1) map to
(x1=0, y1=0, x2=967, y2=747.2272727272727), not y2=747.23. -/
theorem claim1_scaling (fresh : String) (c : DocumentContent)
    (md : CitationMetadata) (p0 p1 p2 p3 : BoundingBox)
    (hmd : c.metadata = some md)
    (hbb : md.bounding_box = some [p0, p1, p2, p3]) :
    ∃ ht, processHighlight fresh c = some ht
      ∧ ht.position.boundingRect.x1 = p0.x * PAGE_WIDTH
      ∧ ht.position.boundingRect.y1 = p0.y * PAGE_HEIGHT
      ∧ ht.position.boundingRect.x2 = p2.x * PAGE_WIDTH
      ∧ ht.position.boundingRect.y2 = p2.y * PAGE_HEIGHT
      ∧ ht.position.rects = [ht.position.boundingRect]
      ∧ ht.position.boundingRect.width = PAGE_WIDTH
      ∧ ht.position.boundingRect.height = PAGE_HEIGHT := by
  rcases c with ⟨cont, cmd⟩
  cases hmd
  rcases md with ⟨bb, pn, sid⟩
  cases hbb
  exact ⟨_, rfl, rfl, rfl, rfl, rfl, rfl, rfl, rfl⟩

/-- C1 witness: the amended claim at the unit-square citation, with the exact
output values. -/
theorem claim1_scaling_witness :
    ∃ ht, processHighlight "f" unitBoxCitation = some ht
      ∧ ht.position.boundingRect.x1 = 0
      ∧ ht.position.boundingRect.y1 = 0
      ∧ ht.position.boundingRect.x2 = 967
      ∧ ht.position.boundingRect.y2 = 747.2272727272727
      ∧ ht.position.rects = [ht.position.boundingRect] := by
  obtain ⟨ht, h1, h2, h3, h4, h5, h6, -⟩ :=
    claim1_scaling "f" unitBoxCitation
      ⟨some [⟨0, 0⟩, ⟨1, 0⟩, ⟨1, 1⟩, ⟨0, 1⟩], some 1, some "abc123"⟩
      ⟨0, 0⟩ ⟨1, 0⟩ ⟨1, 1⟩ ⟨0, 1⟩ rfl rfl
  refine ⟨ht, h1, ?_, ?_, ?_, ?_, h6⟩
  · rw [h2]; norm_num
  · rw [h3]; norm_num
  · rw [h4]; norm_num [PAGE_WIDTH]
  · rw [h5]; norm_num [PAGE_HEIGHT]

/-! ## Claim C9 -/

/-- C9 counterexample: with a caller-side page-dimension lookup that knows the
citation's page as 500 x 400, the source mapper still produces a rectangle of
width 967: it does not resolve dimensions through any lookup, so the claim is
false. -/
theorem claim9_counterexample :
    ((processHighlight "f" unitBoxCitation).map
        fun h => h.position.boundingRect.width) = some 967
    ∧ ((mapCitationToHighlightSpec lookup500 (PAGE_WIDTH, PAGE_HEIGHT) "f"
          unitBoxCitation).map
        fun h => h.position.boundingRect.width) = some 500
    ∧ (967 : ℚ) ≠ 500 := by
  refine ⟨?_, ?_, by norm_num⟩
  · simp [processHighlight, unitBoxCitation, PAGE_WIDTH]
  · simp [mapCitationToHighlightSpec, unitBoxCitation, lookup500]

/-- C9 (amended): the mapper takes no page-dimension lookup at all; it scales
every accepted citation by the hard-coded constants pageWidth = 967 and
pageHeight = 747.2272727272727, with no fallback warning. -/
theorem claim9_hardcoded_dims (fresh : String) (c : DocumentContent)
    (ht : HighlightType) (hx : processHighlight fresh c = some ht) :
    ht.position.boundingRect.width = PAGE_WIDTH
    ∧ ht.position.boundingRect.height = PAGE_HEIGHT := by
  obtain ⟨md, p0, p1, p2, p3, hmd, hbb⟩ :=
    exists_corners_of_valid c (valid_of_processHighlight_eq_some _ _ _ hx)
  obtain ⟨ht2, h1, -, -, -, -, -, h7, h8⟩ :=
    claim1_scaling fresh c md p0 p1 p2 p3 hmd hbb
  rw [hx] at h1
  cases h1
  exact ⟨h7, h8⟩

/-- C9 witness: the amended claim at the unit-square citation. -/
theorem claim9_hardcoded_dims_witness :
    ∃ ht, processHighlight "f" unitBoxCitation = some ht
      ∧ ht.position.boundingRect.width = PAGE_WIDTH
      ∧ ht.position.boundingRect.height = PAGE_HEIGHT := by
  obtain ⟨ht, hht⟩ : ∃ ht, processHighlight "f" unitBoxCitation = some ht :=
    ⟨_, rfl⟩
  obtain ⟨h1, h2⟩ := claim9_hardcoded_dims "f" unitBoxCitation ht hht
  exact ⟨ht, hht, h1, h2⟩

/-! ## Claim C10 -/

/-- C10: for every accepted citation, the output page number is the metadata
page number with absent or 0 defaulting to 1, so it is always at least 1; the
bounding rect carries the same page number. -/
theorem claim10_page_number_default (fresh : String) (c : DocumentContent)
    (md : CitationMetadata) (hmd : c.metadata = some md)
    (hv : hasValidBoundingBox c = true) :
    ∃ ht, processHighlight fresh c = some ht
      ∧ 1 ≤ ht.position.pageNumber
      ∧ ((md.pageNum = none ∨ md.pageNum = some 0) →
          ht.position.pageNumber = 1)
      ∧ (∀ n, md.pageNum = some n → 1 ≤ n → ht.position.pageNumber = n)
      ∧ ht.position.boundingRect.pageNumber = ht.position.pageNumber := by
  obtain ⟨md', p0, p1, p2, p3, hmd', hbb⟩ := exists_corners_of_valid c hv
  rw [hmd] at hmd'
  cases hmd'
  rcases c with ⟨cont, cmd⟩
  cases hmd
  rcases md with ⟨bb, pn, sid⟩
  cases hbb
  rcases pn with _ | n
  · exact ⟨_, rfl, by simp [processHighlight], by simp [processHighlight],
      by simp, rfl⟩
  rcases n with _ | n
  · exact ⟨_, rfl, by simp [processHighlight], by simp [processHighlight],
      by simp [processHighlight], rfl⟩
  · refine ⟨_, rfl, by simp [processHighlight], by simp [processHighlight],
      ?_, rfl⟩
    intro m hm _
    cases hm
    simp [processHighlight]

/-- C10 witness: a citation with no page number maps to page number 1. -/
theorem claim10_page_number_default_witness :
    ∃ ht, processHighlight "f" anonCitation = some ht
      ∧ 1 ≤ ht.position.pageNumber
      ∧ ht.position.pageNumber = 1 := by
  obtain ⟨ht, h1, h2, h3, -, -⟩ :=
    claim10_page_number_default "f" anonCitation
      ⟨some [⟨0, 0⟩, ⟨1, 0⟩, ⟨1, 1⟩, ⟨0, 1⟩], none, none⟩ rfl rfl
  exact ⟨ht, h1, h2, h3 (Or.inl rfl)⟩

/-! ## Claim C2 -/

/-- Diagnostics per citation: one exactly when the bounding box is invalid. -/
theorem processHighlightWarnings_eq (c : DocumentContent) :
    processHighlightWarnings c = if hasValidBoundingBox c then 0 else 1 := by
  rcases c with ⟨cont, _ | ⟨bb, pn, sid⟩⟩
  · simp [processHighlightWarnings, hasValidBoundingBox]
  rcases bb with _ | bb
  · simp [processHighlightWarnings, hasValidBoundingBox]
  rcases bb with _ | ⟨a, _ | ⟨b, _ | ⟨d, _ | ⟨e, _ | ⟨g, rest⟩⟩⟩⟩⟩ <;>
    simp [processHighlightWarnings, hasValidBoundingBox]

/-- The batch keeps exactly the valid citations, independently of the start
index of the fresh-identifier supply. -/
theorem processCitationsAux_length (fresh : Nat → String)
    (cs : List DocumentContent) (i : Nat) :
    (processCitationsAux fresh i cs).length
      = (cs.filter fun c => hasValidBoundingBox c).length := by
  induction cs generalizing i with
  | nil => simp [processCitationsAux]
  | cons c cs ih =>
    cases hc : processHighlight (fresh i) c with
    | none =>
      have hv : hasValidBoundingBox c = false :=
        (processHighlight_eq_none_iff _ _).mp hc
      simp [processCitationsAux, hc, List.filter_cons, hv, ih]
    | some h =>
      have hv : hasValidBoundingBox c = true :=
        valid_of_processHighlight_eq_some _ _ _ hc
      simp [processCitationsAux, hc, List.filter_cons, hv, ih]

/-- Total diagnostics of a batch: one per invalid citation. -/
theorem totalWarnings_eq (cs : List DocumentContent) :
    totalWarnings cs = (cs.filter fun c => ! hasValidBoundingBox c).length := by
  induction cs with
  | nil => simp [totalWarnings]
  | cons c cs ih =>
    rw [totalWarnings, List.map_cons, List.sum_cons]
    rw [totalWarnings] at ih
    rw [processHighlightWarnings_eq, List.filter_cons]
    cases hv : hasValidBoundingBox c <;> simp [ih]
    omega

/-- C2: a citation whose bounding box is missing or does not have exactly 4
points is excluded from the output and reported through exactly one
diagnostic, all other citations of the batch are still processed (the
function is total, so no exception propagates), and on the concrete
5-citation batch whose citation #3 has a 2-element box the mapper returns
exactly 4 highlights and reports exactly one diagnostic. -/
theorem claim2_malformed_resilience (fresh : Nat → String)
    (citations : List DocumentContent) :
    (∀ f c, processHighlight f c = none ↔ hasValidBoundingBox c = false)
    ∧ (processCitationsWithHighlights fresh citations).length
        = (citations.filter fun c => hasValidBoundingBox c).length
    ∧ totalWarnings citations
        = (citations.filter fun c => ! hasValidBoundingBox c).length
    ∧ (processCitationsWithHighlights exFresh batch5).length = 4
    ∧ totalWarnings batch5 = 1 := by
  refine ⟨processHighlight_eq_none_iff, ?_, totalWarnings_eq citations,
    rfl, rfl⟩
  exact processCitationsAux_length fresh citations 0

/-! ## Claim C3 -/

/-- C3: whenever the backend identifier is present and non-empty, the output
highlight's id is exactly that identifier, the result does not depend on the
random draw at all (re-running yields the same output), and only when the
identifier is absent or empty does the fresh random draw become the id. -/
theorem claim3_identity_stability (fresh fresh2 : String)
    (c : DocumentContent) (md : CitationMetadata) (s : String)
    (hmd : c.metadata = some md) (hid : md._id = some s) (hs : s ≠ "")
    (hv : hasValidBoundingBox c = true) :
    (∃ ht, processHighlight fresh c = some ht ∧ ht.id = s)
    ∧ processHighlight fresh c = processHighlight fresh2 c
    ∧ (∀ f c2 md2, c2.metadata = some md2 →
        hasValidBoundingBox c2 = true →
        (md2._id = none ∨ md2._id = some "") →
        ∃ ht2, processHighlight f c2 = some ht2 ∧ ht2.id = f) := by
  refine ⟨?_, ?_, ?_⟩
  · obtain ⟨md', p0, p1, p2, p3, hmd', hbb⟩ := exists_corners_of_valid c hv
    rw [hmd] at hmd'
    cases hmd'
    rcases c with ⟨cont, cmd⟩
    cases hmd
    rcases md with ⟨bb, pn, sid⟩
    cases hbb
    cases hid
    exact ⟨_, rfl, by simp [processHighlight, hs]⟩
  · obtain ⟨md', p0, p1, p2, p3, hmd', hbb⟩ := exists_corners_of_valid c hv
    rw [hmd] at hmd'
    cases hmd'
    rcases c with ⟨cont, cmd⟩
    cases hmd
    rcases md with ⟨bb, pn, sid⟩
    cases hbb
    cases hid
    simp [processHighlight, hs]
  · intro f c2 md2 hmd2 hv2 hid2
    obtain ⟨md', p0, p1, p2, p3, hmd', hbb⟩ := exists_corners_of_valid c2 hv2
    rw [hmd2] at hmd'
    cases hmd'
    rcases c2 with ⟨cont2, cmd2⟩
    cases hmd2
    rcases md2 with ⟨bb2, pn2, sid2⟩
    cases hbb
    rcases hid2 with h | h <;> cases h <;>
      exact ⟨_, rfl, by simp [processHighlight]⟩

/-- C3 witness: the citation with backend id "abc123" yields id "abc123"
regardless of the random draw, and the identifier-free citation falls back to
the supplied draw. -/
theorem claim3_identity_stability_witness :
    (∃ ht, processHighlight "f1" unitBoxCitation = some ht
      ∧ ht.id = "abc123")
    ∧ processHighlight "f1" unitBoxCitation
        = processHighlight "f2" unitBoxCitation
    ∧ (∃ ht2, processHighlight "f1" anonCitation = some ht2
        ∧ ht2.id = "f1") := by
  obtain ⟨h1, h2, h3⟩ :=
    claim3_identity_stability "f1" "f2" unitBoxCitation
      ⟨some [⟨0, 0⟩, ⟨1, 0⟩, ⟨1, 1⟩, ⟨0, 1⟩], some 1, some "abc123"⟩
      "abc123" rfl rfl (by decide) rfl
  exact ⟨h1, h2,
    h3 "f1" anonCitation ⟨some [⟨0, 0⟩, ⟨1, 0⟩, ⟨1, 1⟩, ⟨0, 1⟩], none, none⟩
      rfl rfl (Or.inl rfl)⟩

/-! ## Claim C7 -/

/-- C7: updating a held highlight by id preserves the length and order of the
sequence, leaves every item with a different id untouched at its index, and
rebuilds the matching item in place with only its position and content
spread-merged (its id and comment are carried over unchanged). -/
theorem claim7_update_in_place (highlightId : String) (p : PartialPosition)
    (cont : Content) (l : List HighlightType) :
    (updateHighlight highlightId p cont l).length = l.length
    ∧ (∀ (i : Nat) (h : HighlightType), l[i]? = some h →
        h.id ≠ highlightId →
        (updateHighlight highlightId p cont l)[i]? = some h)
    ∧ (∀ (i : Nat) (h : HighlightType), l[i]? = some h →
        h.id = highlightId →
        (updateHighlight highlightId p cont l)[i]?
          = some { h with
                    position := mergePosition h.position p
                    content := mergeContent h.content cont }) := by
  refine ⟨by simp [updateHighlight], ?_, ?_⟩
  · intro i h hi hne
    simp [updateHighlight, List.getElem?_map, hi, hne]
  · intro i h hi heq
    simp [updateHighlight, List.getElem?_map, hi, heq]

/-- C7 witness: in a concrete two-highlight list, updating the highlight with
id "a" leaves the other entry bit-identical at its index, keeps the length,
and replaces only the targeted position and content fields. -/
theorem claim7_update_in_place_witness :
    (updateHighlight "a"
        ⟨some ⟨5, 6, 7, 8, 100, 200, 2⟩, none, none⟩
        ⟨some "new", none⟩ [exHighlightA, exHighlightB]).length = 2
    ∧ (updateHighlight "a"
        ⟨some ⟨5, 6, 7, 8, 100, 200, 2⟩, none, none⟩
        ⟨some "new", none⟩ [exHighlightA, exHighlightB])[1]?
        = some exHighlightB
    ∧ (updateHighlight "a"
        ⟨some ⟨5, 6, 7, 8, 100, 200, 2⟩, none, none⟩
        ⟨some "new", none⟩ [exHighlightA, exHighlightB])[0]?
        = some { exHighlightA with
                  position := mergePosition exHighlightA.position
                    ⟨some ⟨5, 6, 7, 8, 100, 200, 2⟩, none, none⟩
                  content := mergeContent exHighlightA.content
                    ⟨some "new", none⟩ } := by
  obtain ⟨h1, h2, h3⟩ :=
    claim7_update_in_place "a" ⟨some ⟨5, 6, 7, 8, 100, 200, 2⟩, none, none⟩
      ⟨some "new", none⟩ [exHighlightA, exHighlightB]
  exact ⟨h1, h2 1 exHighlightB rfl (by decide), h3 0 exHighlightA rfl rfl⟩

/-! ## Claim C8 -/

/-- Every id in the batch output is either a fresh draw for one of the batch
indices or the backend identifier of one of the citations. -/
theorem mem_ids_processCitationsAux (fresh : Nat → String)
    (cs : List DocumentContent) (i : Nat) (x : String)
    (hx : x ∈ (processCitationsAux fresh i cs).map fun h => h.id) :
    (∃ j, i ≤ j ∧ j < i + cs.length ∧ x = fresh j)
    ∨ ∃ c ∈ cs, citationSourceId c = some x := by
  induction cs generalizing i with
  | nil => simp [processCitationsAux] at hx
  | cons c cs ih =>
    cases hc : processHighlight (fresh i) c with
    | none =>
      simp only [processCitationsAux, hc] at hx
      rcases ih (i + 1) hx with ⟨j, hj1, hj2, hje⟩ | ⟨c', hc', hs⟩
      · exact Or.inl ⟨j, by omega, by simpa using by omega, hje⟩
      · exact Or.inr ⟨c', List.mem_cons_of_mem _ hc', hs⟩
    | some h =>
      simp only [processCitationsAux, hc, List.map_cons,
        List.mem_cons] at hx
      rcases hx with rfl | hx
      · have hid := processHighlight_id_eq _ _ _ hc
        cases hcs : citationSourceId c with
        | none =>
          rw [hcs] at hid
          simp only [Option.getD_none] at hid
          exact Or.inl ⟨i, le_refl i, by simp, hid⟩
        | some s =>
          rw [hcs] at hid
          simp only [Option.getD_some] at hid
          exact Or.inr ⟨c, List.mem_cons_self c cs, by rw [hcs, hid]⟩
      · rcases ih (i + 1) hx with ⟨j, hj1, hj2, hje⟩ | ⟨c', hc', hs⟩
        · exact Or.inl ⟨j, by omega, by simpa using by omega, hje⟩
        · exact Or.inr ⟨c', List.mem_cons_of_mem _ hc', hs⟩

/-- Distinctness of the output ids from an arbitrary start index, assuming
the fresh draws for the batch indices are distinct, never collide with a
backend identifier of the batch, and the backend identifiers themselves are
distinct. -/
theorem processCitationsAux_ids_nodup (fresh : Nat → String)
    (cs : List DocumentContent) (i : Nat)
    (hinj : (((List.range' i cs.length).map fresh)).Nodup)
    (hdisj : ∀ j ∈ List.range' i cs.length, ∀ c ∈ cs, ∀ s,
        citationSourceId c = some s → fresh j ≠ s)
    (hids : (cs.filterMap citationSourceId).Nodup) :
    ((processCitationsAux fresh i cs).map fun h => h.id).Nodup := by
  induction cs generalizing i with
  | nil => simp [processCitationsAux]
  | cons c cs ih =>
    have hrange : List.range' i (c :: cs).length
        = i :: List.range' (i + 1) cs.length := List.range'_succ i _ 1
    have hinj' : ((List.range' (i + 1) cs.length).map fresh).Nodup := by
      rw [hrange, List.map_cons, List.nodup_cons] at hinj
      exact hinj.2
    have hfreshi : fresh i ∉ (List.range' (i + 1) cs.length).map fresh := by
      rw [hrange, List.map_cons, List.nodup_cons] at hinj
      exact hinj.1
    have hdisj' : ∀ j ∈ List.range' (i + 1) cs.length, ∀ c' ∈ cs, ∀ s,
        citationSourceId c' = some s → fresh j ≠ s := by
      intro j hj c' hc' s hs
      refine hdisj j ?_ c' (List.mem_cons_of_mem _ hc') s hs
      rw [List.mem_range'_1] at hj ⊢
      simp only [List.length_cons]
      omega
    have hids' : (cs.filterMap citationSourceId).Nodup := by
      rw [List.filterMap_cons] at hids
      cases hcs : citationSourceId c with
      | none => rw [hcs] at hids; exact hids
      | some s => rw [hcs] at hids; exact (List.nodup_cons.mp hids).2
    cases hc : processHighlight (fresh i) c with
    | none =>
      simp only [processCitationsAux, hc]
      exact ih (i + 1) hinj' hdisj' hids'
    | some h =>
      simp only [processCitationsAux, hc, List.map_cons]
      rw [List.nodup_cons]
      refine ⟨?_, ih (i + 1) hinj' hdisj' hids'⟩
      intro hmem
      have hid := processHighlight_id_eq _ _ _ hc
      rcases mem_ids_processCitationsAux fresh cs (i + 1) h.id hmem with
        ⟨j, hj1, hj2, hje⟩ | ⟨c', hc', hs'⟩
      · have hjmem : j ∈ List.range' (i + 1) cs.length := by
          rw [List.mem_range'_1]
          omega
        cases hcs : citationSourceId c with
        | none =>
          rw [hcs] at hid
          simp only [Option.getD_none] at hid
          refine hfreshi ?_
          rw [← hid, hje]
          exact List.mem_map_of_mem fresh hjmem
        | some s =>
          rw [hcs] at hid
          simp only [Option.getD_some] at hid
          exact hdisj j (by rw [List.mem_range'_1]
                            simp only [List.length_cons]
                            omega)
            c (List.mem_cons_self c cs) s hcs (by rw [← hje, hid])
      · cases hcs : citationSourceId c with
        | none =>
          rw [hcs] at hid
          simp only [Option.getD_none] at hid
          exact hdisj i (by rw [List.mem_range'_1]
                            simp only [List.length_cons]
                            omega)
            c' (List.mem_cons_of_mem _ hc') h.id hs' (by rw [← hid])
        | some s =>
          rw [hcs] at hid
          simp only [Option.getD_some] at hid
          have : s ∈ cs.filterMap citationSourceId := by
            rw [← hid]
            exact List.mem_filterMap.mpr ⟨c', hc', hs'⟩
          rw [List.filterMap_cons, hcs] at hids
          exact (List.nodup_cons.mp hids).1 this

/-- C8 counterexample: two citations sharing the backend identifier "dup"
yield two highlights whose ids are both "dup", so the ids of one mapper
invocation's output are not pairwise distinct. -/
theorem claim8_counterexample :
    ((processCitationsWithHighlights exFresh [dupCitation, dupCitation]).map
        fun h => h.id) = ["dup", "dup"]
    ∧ ¬ ((processCitationsWithHighlights exFresh
          [dupCitation, dupCitation]).map fun h => h.id).Nodup := by
  refine ⟨rfl, ?_⟩
  intro hnd
  have heq : ((processCitationsWithHighlights exFresh
      [dupCitation, dupCitation]).map fun h => h.id) = ["dup", "dup"] := rfl
  rw [heq] at hnd
  simp at hnd

/-- C8 (amended): the ids of one mapper invocation's output are pairwise
distinct provided the fresh `getNextId` draws for the batch are pairwise
distinct, no draw collides with any citation's non-empty backend identifier,
and the non-empty backend identifiers themselves are pairwise distinct; when
two citations share the same backend identifier the output ids collide, so
the unconditional claim fails. -/
theorem claim8_distinct_ids (fresh : Nat → String)
    (citations : List DocumentContent)
    (hinj : (((List.range citations.length).map fresh)).Nodup)
    (hdisj : ∀ j ∈ List.range citations.length, ∀ c ∈ citations, ∀ s,
        citationSourceId c = some s → fresh j ≠ s)
    (hids : (citations.filterMap citationSourceId).Nodup) :
    ((processCitationsWithHighlights fresh citations).map
      fun h => h.id).Nodup := by
  rw [processCitationsWithHighlights]
  refine processCitationsAux_ids_nodup fresh citations 0 ?_ ?_ hids
  · rw [← List.range_eq_range']
    exact hinj
  · rw [← List.range_eq_range']
    exact hdisj

/-- C8 witness: the amended claim on a concrete three-citation batch with
distinct backend ids, one identifier-free citation and distinct fresh
draws. -/
theorem claim8_distinct_ids_witness :
    ((processCitationsWithHighlights witnessFresh
        [unitBoxCitation, dupCitation, anonCitation]).map
      fun h => h.id).Nodup := by
  refine claim8_distinct_ids witnessFresh
    [unitBoxCitation, dupCitation, anonCitation] (by decide) ?_ (by decide)
  decide

/-! ## Claim C4 -/

/-- C4: a fetch response whose generation token differs from the current
generation is never applied to state (neither a query response nor a
pagination response), and in the two-query scenario the first query's late
response is discarded while the second query's response populates the visible
items. -/
theorem claim4_stale_response_discarded {α : Type}
    (s : AggregatedResultSet α) (fooRes barRes : List α) :
    (∀ token res, token ≠ s.generation → fetchResolves s token res = s)
    ∧ (∀ token res, token ≠ s.generation → loadMoreResolves s token res = s)
    ∧ fetchResolves (submitQuery (submitQuery s "foo") "bar")
        (submitQuery s "foo").generation fooRes
        = submitQuery (submitQuery s "foo") "bar"
    ∧ (fetchResolves
        (fetchResolves (submitQuery (submitQuery s "foo") "bar")
          (submitQuery s "foo").generation fooRes)
        (submitQuery (submitQuery s "foo") "bar").generation barRes).items
        = barRes := by
  have hdiscard : fetchResolves (submitQuery (submitQuery s "foo") "bar")
      (submitQuery s "foo").generation fooRes
      = submitQuery (submitQuery s "foo") "bar" := by
    rw [fetchResolves, if_neg]
    simp [submitQuery]
  refine ⟨?_, ?_, hdiscard, ?_⟩
  · intro token res htok
    rw [fetchResolves, if_neg htok]
  · intro token res htok
    rw [loadMoreResolves, if_neg htok]
  · rw [hdiscard, fetchResolves, if_pos rfl]

/-- C4 witness: the stale-discard scenario at a concrete initial state over
natural-number items. -/
theorem claim4_stale_response_discarded_witness :
    fetchResolves
        (fetchResolves
          (submitQuery (submitQuery
            (⟨0, "", [], 10, false, false⟩ : AggregatedResultSet Nat) "foo")
            "bar")
          (submitQuery
            (⟨0, "", [], 10, false, false⟩ : AggregatedResultSet Nat)
            "foo").generation [7, 7, 7])
        (submitQuery (submitQuery
          (⟨0, "", [], 10, false, false⟩ : AggregatedResultSet Nat) "foo")
          "bar").generation [1, 2, 3] = ⟨2, "bar", [1, 2, 3], 10, false, true⟩
    ∧ fetchResolves
        (⟨5, "q", [9], 10, false, true⟩ : AggregatedResultSet Nat) 4 [1]
        = ⟨5, "q", [9], 10, false, true⟩ := by
  have h := claim4_stale_response_discarded
    (⟨0, "", [], 10, false, false⟩ : AggregatedResultSet Nat) [7, 7, 7]
    [1, 2, 3]
  refine ⟨?_, ?_⟩
  · have h4 := h.2.2.2
    have h3 := h.2.2.1
    rw [h3] at h4 ⊢
    rw [fetchResolves, if_pos rfl]
    simp [submitQuery, initialFetchCursor]
  · exact (claim4_stale_response_discarded
      (⟨5, "q", [9], 10, false, true⟩ : AggregatedResultSet Nat) [] []).1
      4 [1] (by decide)

/-! ## Claim C5 -/

/-- C5: from a state with no fetch in flight, a sentinel-triggered pagination
fetch appends the returned items to the existing sequence rather than
replacing it, so the prior items survive as an unchanged prefix; in
particular 10 items plus 10 returned items give 20 items whose first 10 are
the originals. -/
theorem claim5_pagination_appends {α : Type} (s : AggregatedResultSet α)
    (hload : s.loading = false) (newItems : List α) :
    (loadMoreResolves (scrolledToSentinel s) s.generation newItems).items
      = s.items ++ newItems
    ∧ (loadMoreResolves (scrolledToSentinel s) s.generation
        newItems).items.take s.items.length = s.items
    ∧ (loadMoreResolves (scrolledToSentinel s) s.generation
        newItems).items.length = s.items.length + newItems.length
    ∧ (s.items.length = 10 → newItems.length = 10 →
        (loadMoreResolves (scrolledToSentinel s) s.generation
          newItems).items.length = 20) := by
  have happ : (loadMoreResolves (scrolledToSentinel s) s.generation
      newItems).items = s.items ++ newItems := by
    rw [scrolledToSentinel, if_neg (by rw [hload]; exact Bool.false_ne_true)]
    rw [loadMoreResolves]
    simp
  refine ⟨happ, ?_, ?_, ?_⟩
  · rw [happ]
    exact List.take_left s.items newItems
  · rw [happ, List.length_append]
  · intro h10 hn10
    rw [happ, List.length_append, h10, hn10]

/-- C5 witness: a populated state holding the 10 items 0..9 receives 10 more
items; the result has 20 items and its first 10 are the original ones. -/
theorem claim5_pagination_appends_witness :
    (loadMoreResolves (scrolledToSentinel
        (⟨3, "q", List.range 10, 10, false, true⟩ : AggregatedResultSet Nat))
        3 (List.range 10)).items.take 10 = List.range 10
    ∧ (loadMoreResolves (scrolledToSentinel
        (⟨3, "q", List.range 10, 10, false, true⟩ : AggregatedResultSet Nat))
        3 (List.range 10)).items.length = 20 := by
  have h := claim5_pagination_appends
    (⟨3, "q", List.range 10, 10, false, true⟩ : AggregatedResultSet Nat)
    rfl (List.range 10)
  exact ⟨by simpa using h.2.1, h.2.2.2 (by simp) (by simp)⟩

/-! ## Claim C6 -/

/-- C6: while a pagination fetch is in flight, a sentinel crossing is dropped
entirely (the state, in particular the fetch cursor, is unchanged, and no new
fetch starts); repeated crossings after a permitted one are likewise
no-ops, so at most one load-more fetch is outstanding; a permitted crossing
advances the cursor by exactly the fixed increment 10 and starts the single
fetch; and a sentinel crossing never decreases the cursor. -/
theorem claim6_single_inflight_fetch {α : Type}
    (s : AggregatedResultSet α) :
    (s.loading = true → scrolledToSentinel s = s)
    ∧ (s.loading = false →
        (scrolledToSentinel s).fetchCursor = s.fetchCursor + 10
        ∧ (scrolledToSentinel s).loading = true)
    ∧ scrolledToSentinel (scrolledToSentinel s) = scrolledToSentinel s
    ∧ s.fetchCursor ≤ (scrolledToSentinel s).fetchCursor := by
  cases hload : s.loading with
  | true =>
    have hid : scrolledToSentinel s = s := by
      rw [scrolledToSentinel, if_pos hload]
    exact ⟨fun _ => hid, fun hfalse => Bool.noConfusion hfalse,
      by rw [hid, hid], by rw [hid]⟩
  | false =>
    have hstep : scrolledToSentinel s
        = { s with fetchCursor := s.fetchCursor + 10, loading := true } := by
      rw [scrolledToSentinel, if_neg (by rw [hload]; exact Bool.false_ne_true)]
    refine ⟨fun htrue => Bool.noConfusion htrue,
      fun _ => by rw [hstep]; exact ⟨rfl, rfl⟩, ?_, ?_⟩
    · rw [hstep, scrolledToSentinel, if_pos rfl]
    · rw [hstep]
      exact Nat.le_add_right _ 10

/-- C6 witness: at a concrete loading state the crossing is a no-op, and at a
concrete idle state it advances the cursor from 10 to 20, flips loading, and
a second crossing changes nothing further. -/
theorem claim6_single_inflight_fetch_witness :
    scrolledToSentinel
        (⟨1, "q", [4], 30, true, true⟩ : AggregatedResultSet Nat)
        = ⟨1, "q", [4], 30, true, true⟩
    ∧ (scrolledToSentinel
        (⟨1, "q", [4], 10, false, true⟩ : AggregatedResultSet Nat)).fetchCursor
        = 20
    ∧ scrolledToSentinel (scrolledToSentinel
        (⟨1, "q", [4], 10, false, true⟩ : AggregatedResultSet Nat))
        = scrolledToSentinel
          (⟨1, "q", [4], 10, false, true⟩ : AggregatedResultSet Nat) := by
  refine ⟨(claim6_single_inflight_fetch
      (⟨1, "q", [4], 30, true, true⟩ : AggregatedResultSet Nat)).1 rfl,
    ?_,
    (claim6_single_inflight_fetch
      (⟨1, "q", [4], 10, false, true⟩ : AggregatedResultSet Nat)).2.2.1⟩
  exact ((claim6_single_inflight_fetch
    (⟨1, "q", [4], 10, false, true⟩ : AggregatedResultSet Nat)).2.1 rfl).1

end Pipeshub
